import Mathlib

/-!
Verification development for the foss4g-2021 lazy tiled-raster aggregation
workflow. The only executable program logic shipped by the repository itself
is the dask-gateway cluster option handler in the Helm configuration
(`01-optionHandler`); it is embedded below as `option_handler`. The three
workflow components described by the design document (Catalog Query Client,
Virtual Array Builder, Deferred Execution Engine) are delegated to external
libraries and are therefore modelled here from the design document's own
wording, as marked on each definition.
-/

namespace Foss4g

/-! ## Dask-gateway cluster option handler (config/jupyterhub helm values)

The handler receives the user-supplied cluster options and returns the
concrete worker resource requests and limits. Python floats are embedded as
rationals; the `"%fG"` memory strings are embedded by their numeric value in
GiB. -/

/-- The user-facing cluster options: `Float("worker_cores", 1, min=1, max=16)`,
`Float("worker_memory", 8, min=8, max=128)`, `String("image", ...)`,
`Mapping("environment", {})`. -/
structure ClusterOptions where
  worker_cores : ℚ
  worker_memory : ℚ
  image : String
  environment : List (String × String)
deriving DecidableEq

/-- The mapping returned by `option_handler`: resource requests, limits, image
and environment, with the memory strings represented by their GiB value. -/
structure WorkerConfig where
  worker_cores : ℚ
  worker_cores_limit : ℚ
  worker_memory : ℚ
  worker_memory_limit : ℚ
  image : String
  environment : List (String × String)
deriving DecidableEq

/-- Embedding of `option_handler` from the `01-optionHandler` block of the
Helm values: raises (`Except.error`) when the image string has no colon,
otherwise returns the bounded resource mapping
`worker_cores = 0.88 * min(options.worker_cores / 2, 1)`,
`worker_cores_limit = options.worker_cores`,
`worker_memory = 0.9 * options.worker_memory`,
`worker_memory_limit = options.worker_memory`. -/
def option_handler (options : ClusterOptions) : Except String WorkerConfig :=
  if options.image.data.contains ':' = false then
    Except.error "When specifying an image you must also provide a tag"
  else
    Except.ok
      { worker_cores := (88 / 100) * min (options.worker_cores / 2) 1
        worker_cores_limit := options.worker_cores
        worker_memory := (9 / 10) * options.worker_memory
        worker_memory_limit := options.worker_memory
        image := options.image
        environment := options.environment }

/-- C9: whenever the handler accepts options whose cores lie in [1, 16] and
whose memory lies in [8, 128], the returned requests stay within the returned
limits: the cores request is at most the cores limit and the memory request is
strictly below the memory limit. -/
theorem option_handler_request_within_limit
    (o : ClusterOptions) (cfg : WorkerConfig)
    (hc1 : 1 ≤ o.worker_cores) (hc2 : o.worker_cores ≤ 16)
    (hm1 : 8 ≤ o.worker_memory) (hm2 : o.worker_memory ≤ 128)
    (hok : option_handler o = Except.ok cfg) :
    cfg.worker_cores ≤ cfg.worker_cores_limit ∧
      cfg.worker_memory < cfg.worker_memory_limit := by
  unfold option_handler at hok
  split at hok
  · exact absurd hok (by simp)
  · cases hok
    constructor
    · have hmin : min (o.worker_cores / 2) 1 ≤ 1 := min_le_right _ _
      have hnn : (0 : ℚ) ≤ 88 / 100 := by norm_num
      calc (88 / 100 : ℚ) * min (o.worker_cores / 2) 1
          ≤ (88 / 100) * 1 := by exact mul_le_mul_of_nonneg_left hmin hnn
        _ ≤ 1 := by norm_num
        _ ≤ o.worker_cores := hc1
    · have hpos : (0 : ℚ) < o.worker_memory := lt_of_lt_of_le (by norm_num) hm1
      nlinarith

/-- Witness for C9 at concrete options (1 core, 8 GiB, tagged image). -/
theorem option_handler_request_within_limit_witness :
    ({ worker_cores := (88 / 100) * min ((1 : ℚ) / 2) 1
       worker_cores_limit := 1
       worker_memory := (9 / 10) * 8
       worker_memory_limit := 8
       image := "pangeo/pangeo-notebook:latest"
       environment := [] } : WorkerConfig).worker_cores ≤ 1 ∧
      ((9 / 10 : ℚ) * 8) < 8 :=
  option_handler_request_within_limit
    { worker_cores := 1, worker_memory := 8,
      image := "pangeo/pangeo-notebook:latest", environment := [] }
    _ (by norm_num) (by norm_num) (by norm_num) (by norm_num) (by rfl)

/-- C10: the handler raises if and only if the image string contains no colon;
for every image containing a colon it returns the options mapping. -/
theorem option_handler_error_iff_untagged_image (o : ClusterOptions) :
    (∃ msg, option_handler o = Except.error msg) ↔
      o.image.data.contains ':' = false := by
  unfold option_handler
  constructor
  · intro h
    obtain ⟨msg, hmsg⟩ := h
    by_contra hcon
    rw [if_neg hcon] at hmsg
    exact absurd hmsg (by simp)
  · intro h
    rw [if_pos h]
    exact ⟨_, rfl⟩

/-! ## Data model of the lazy tiled-raster aggregation workflow -/

/-- Modelled from the spec: an AssetDescriptor identifies one remotely stored
tile: location (URI), spatial footprint (embedded as an axis-aligned bounding
box), acquisition timestamp and band identifiers. Immutable once retrieved. -/
structure AssetDescriptor where
  uri : String
  xmin : Int
  ymin : Int
  xmax : Int
  ymax : Int
  timestamp : Nat
  bands : List String
deriving DecidableEq

/-- Decidable equality on the builder and engine results, so concrete runs can
be checked by evaluation. -/
instance exceptDecidableEq {ε α : Type} [DecidableEq ε] [DecidableEq α] :
    DecidableEq (Except ε α) := fun x y =>
  match x, y with
  | Except.ok a, Except.ok b =>
    if h : a = b then Decidable.isTrue (by rw [h])
    else Decidable.isFalse (fun hc => h (Except.ok.inj hc))
  | Except.error e, Except.error f =>
    if h : e = f then Decidable.isTrue (by rw [h])
    else Decidable.isFalse (fun hc => h (Except.error.inj hc))
  | Except.ok _, Except.error _ => Decidable.isFalse (fun hc => Except.noConfusion hc)
  | Except.error _, Except.ok _ => Decidable.isFalse (fun hc => Except.noConfusion hc)

/-! ## Catalog Query Client -/

/-- Modelled from the spec: a catalog request with a spatial region (bounding
box) and a time interval. -/
structure SearchFilter where
  xmin : Int
  ymin : Int
  xmax : Int
  ymax : Int
  tStart : Nat
  tEnd : Nat
deriving DecidableEq

/-- An asset is fully contained within the filter's spatial bounds and within
its time interval. -/
def containedIn (a : AssetDescriptor) (f : SearchFilter) : Bool :=
  decide (f.xmin ≤ a.xmin) && decide (a.xmax ≤ f.xmax) &&
  decide (f.ymin ≤ a.ymin) && decide (a.ymax ≤ f.ymax) &&
  decide (f.tStart ≤ a.timestamp) && decide (a.timestamp ≤ f.tEnd)

/-- Modelled from the spec: the Catalog Query Client accepts spatial/temporal
filters against a metadata index and returns the sequence of AssetDescriptors
matching them, fully contained within the requested bounds. -/
def catalogSearch (catalog : List AssetDescriptor) (f : SearchFilter) :
    List AssetDescriptor :=
  catalog.filter (fun a => containedIn a f)

/-! ## Virtual Array Builder -/

/-- Modelled from the spec: builder parameters with requested spatial bounds,
time range and band selection. -/
structure BuildParams where
  xmin : Int
  ymin : Int
  xmax : Int
  ymax : Int
  tStart : Nat
  tEnd : Nat
  bands : List String
deriving DecidableEq

/-- An asset participates in a build when its footprint intersects the
requested bounds and its timestamp lies in the requested time range. -/
def intersects (a : AssetDescriptor) (p : BuildParams) : Bool :=
  decide (a.xmin ≤ p.xmax) && decide (p.xmin ≤ a.xmax) &&
  decide (a.ymin ≤ p.ymax) && decide (p.ymin ≤ a.ymax) &&
  decide (p.tStart ≤ a.timestamp) && decide (a.timestamp ≤ p.tEnd)

/-- Modelled from the spec: builder failures — empty intersection with the
requested bounds/time range, or a requested band absent in some asset. -/
inductive BuildError where
  | emptyIntersection
  | missingBand
deriving DecidableEq

/-- Some requested band is absent in some participating asset. -/
def missingRequestedBand (hits : List AssetDescriptor) (bs : List String) : Bool :=
  hits.any (fun a => bs.any (fun b => ! a.bands.contains b))

/-- Insert a timestamp into a strictly sorted list, keeping it strictly
sorted and duplicate-free. -/
def insertTime (t : Nat) : List Nat → List Nat
  | [] => [t]
  | u :: us =>
    if t < u then t :: u :: us
    else if t = u then u :: us
    else u :: insertTime t us

/-- The sorted, deduplicated set of timestamps. -/
def sortedDedupTimes (ts : List Nat) : List Nat := ts.foldr insertTime []

/-- Insert an asset into a list kept sorted by ascending acquisition
timestamp. -/
def insertAsset (a : AssetDescriptor) :
    List AssetDescriptor → List AssetDescriptor
  | [] => [a]
  | x :: xs =>
    if a.timestamp < x.timestamp then a :: x :: xs else x :: insertAsset a xs

/-- Sort assets by ascending acquisition timestamp. -/
def sortByTime (l : List AssetDescriptor) : List AssetDescriptor :=
  l.foldr insertAsset []

/-- Modelled from the spec: a VirtualArray is a coordinate-labeled description
whose cell values are not materialized — coordinate axes plus the
participating assets in ascending acquisition order. -/
structure VirtualArray where
  timeAxis : List Nat
  bandAxis : List String
  assets : List AssetDescriptor
deriving DecidableEq

/-- The assets intersecting the requested bounds and time range. -/
def buildHits (assets : List AssetDescriptor) (p : BuildParams) :
    List AssetDescriptor :=
  assets.filter (fun a => intersects a p)

/-- Modelled from the spec: the Virtual Array Builder. It fails with
`BuildError` if no AssetDescriptors intersect the requested bounds/time range
or if requested bands are absent in an asset; otherwise the time axis is the
sorted, deduplicated set of source timestamps, the band axis is the union of
the requested band identifiers, and the assets are kept in ascending
acquisition order. No pixel data is touched. -/
def build (assets : List AssetDescriptor) (p : BuildParams) :
    Except BuildError VirtualArray :=
  if (buildHits assets p).isEmpty then
    Except.error BuildError.emptyIntersection
  else if missingRequestedBand (buildHits assets p) p.bands then
    Except.error BuildError.missingBand
  else
    Except.ok
      { timeAxis := sortedDedupTimes ((buildHits assets p).map AssetDescriptor.timestamp)
        bandAxis := p.bands.dedup
        assets := sortByTime (buildHits assets p) }

theorem mem_insertTime (x t : Nat) (l : List Nat) :
    x ∈ insertTime t l ↔ x = t ∨ x ∈ l := by
  induction l with
  | nil => simp [insertTime]
  | cons u us ih =>
    by_cases h1 : t < u
    · simp [insertTime, h1]
    · by_cases h2 : t = u
      · simp only [insertTime, if_neg h1, if_pos h2]
        subst h2
        constructor
        · exact Or.inr
        · rintro (rfl | h)
          · exact List.mem_cons_self _ _
          · exact h
      · simp only [insertTime, if_neg h1, if_neg h2, List.mem_cons, ih]
        tauto

theorem sorted_insertTime (t : Nat) (l : List Nat)
    (hl : List.Sorted (· < ·) l) : List.Sorted (· < ·) (insertTime t l) := by
  induction l with
  | nil => simp [insertTime]
  | cons u us ih =>
    rw [List.sorted_cons] at hl
    obtain ⟨hu, hus⟩ := hl
    by_cases h1 : t < u
    · simp only [insertTime, if_pos h1]
      rw [List.sorted_cons]
      refine ⟨?_, ?_⟩
      · intro b hb
        rcases List.mem_cons.mp hb with rfl | hb
        · exact h1
        · exact lt_trans h1 (hu b hb)
      · rw [List.sorted_cons]
        exact ⟨hu, hus⟩
    · by_cases h2 : t = u
      · simp only [insertTime, if_neg h1, if_pos h2]
        rw [List.sorted_cons]
        exact ⟨hu, hus⟩
      · simp only [insertTime, if_neg h1, if_neg h2]
        rw [List.sorted_cons]
        refine ⟨?_, ih hus⟩
        intro b hb
        rcases (mem_insertTime b t us).mp hb with rfl | hb
        · omega
        · exact hu b hb

theorem sorted_sortedDedupTimes (ts : List Nat) :
    List.Sorted (· < ·) (sortedDedupTimes ts) := by
  induction ts with
  | nil => simp [sortedDedupTimes]
  | cons t ts ih => exact sorted_insertTime t _ ih

theorem mem_sortedDedupTimes (x : Nat) (ts : List Nat) :
    x ∈ sortedDedupTimes ts ↔ x ∈ ts := by
  induction ts with
  | nil => simp [sortedDedupTimes]
  | cons t ts ih =>
    simp only [sortedDedupTimes, List.foldr_cons] at *
    rw [mem_insertTime, ih, List.mem_cons]

theorem mem_insertAsset (x a : AssetDescriptor) (l : List AssetDescriptor) :
    x ∈ insertAsset a l ↔ x = a ∨ x ∈ l := by
  induction l with
  | nil => simp [insertAsset]
  | cons y ys ih =>
    by_cases h : a.timestamp < y.timestamp
    · simp [insertAsset, h]
    · simp only [insertAsset, if_neg h, List.mem_cons, ih]
      tauto

theorem pairwise_insertAsset (a : AssetDescriptor) (l : List AssetDescriptor)
    (hl : l.Pairwise (fun u v => u.timestamp ≤ v.timestamp)) :
    (insertAsset a l).Pairwise (fun u v => u.timestamp ≤ v.timestamp) := by
  induction l with
  | nil => simp [insertAsset]
  | cons y ys ih =>
    rw [List.pairwise_cons] at hl
    obtain ⟨hy, hys⟩ := hl
    by_cases h : a.timestamp < y.timestamp
    · simp only [insertAsset, if_pos h]
      rw [List.pairwise_cons]
      refine ⟨?_, ?_⟩
      · intro b hb
        rcases List.mem_cons.mp hb with rfl | hb
        · exact le_of_lt h
        · exact le_trans (le_of_lt h) (hy b hb)
      · rw [List.pairwise_cons]
        exact ⟨hy, hys⟩
    · simp only [insertAsset, if_neg h]
      rw [List.pairwise_cons]
      refine ⟨?_, ih hys⟩
      intro b hb
      rcases (mem_insertAsset b a ys).mp hb with rfl | hb
      · omega
      · exact hy b hb

theorem pairwise_sortByTime (l : List AssetDescriptor) :
    (sortByTime l).Pairwise (fun u v => u.timestamp ≤ v.timestamp) := by
  induction l with
  | nil => simp [sortByTime]
  | cons a as ih => exact pairwise_insertAsset a _ ih

theorem mem_sortByTime (x : AssetDescriptor) (l : List AssetDescriptor) :
    x ∈ sortByTime l ↔ x ∈ l := by
  induction l with
  | nil => simp [sortByTime]
  | cons a as ih =>
    simp only [sortByTime, List.foldr_cons] at *
    rw [mem_insertAsset, ih, List.mem_cons]

/-- A sample asset used by concrete witnesses. -/
def sampleAsset : AssetDescriptor :=
  { uri := "https://example.com/tiles/a.tif"
    xmin := 0, ymin := 0, xmax := 10, ymax := 10
    timestamp := 5, bands := ["B02", "B03"] }

/-- A second sample asset, overlapping `sampleAsset` with a later
timestamp. -/
def sampleAssetLate : AssetDescriptor :=
  { uri := "https://example.com/tiles/b.tif"
    xmin := 5, ymin := 5, xmax := 15, ymax := 15
    timestamp := 7, bands := ["B02", "B03"] }

/-- C7: every AssetDescriptor returned by the Catalog Query Client is fully
contained within the requested spatial bounds and time interval. -/
theorem catalogSearch_contained (catalog : List AssetDescriptor)
    (f : SearchFilter) (a : AssetDescriptor)
    (ha : a ∈ catalogSearch catalog f) : containedIn a f = true :=
  (List.mem_filter.mp ha).2

/-- Witness for C7 on a one-asset catalog and a containing filter. -/
theorem catalogSearch_contained_witness :
    containedIn sampleAsset
      { xmin := -1, ymin := -1, xmax := 11, ymax := 11,
        tStart := 0, tEnd := 9 } = true :=
  catalogSearch_contained [sampleAsset]
    { xmin := -1, ymin := -1, xmax := 11, ymax := 11, tStart := 0, tEnd := 9 }
    sampleAsset (by decide)

/-- C3: the builder fails with the empty-intersection `BuildError` exactly
when no given asset intersects the requested bounds/time range; in
particular it never returns an empty-but-successful VirtualArray. -/
theorem build_emptyIntersection_iff (assets : List AssetDescriptor)
    (p : BuildParams) :
    build assets p = Except.error BuildError.emptyIntersection ↔
      ∀ a ∈ assets, intersects a p = false := by
  constructor
  · intro h a ha
    unfold build at h
    by_cases he : (buildHits assets p).isEmpty
    · have hnil : buildHits assets p = [] := by
        cases hx : buildHits assets p with
        | nil => rfl
        | cons y ys => rw [hx] at he; simp [List.isEmpty] at he
      by_contra hcon
      have hmem : a ∈ buildHits assets p :=
        List.mem_filter.mpr ⟨ha, by simpa using hcon⟩
      rw [hnil] at hmem
      simp at hmem
    · rw [if_neg he] at h
      split at h
      · exact absurd h (by simp)
      · exact absurd h (by simp)
  · intro hall
    have hnil : buildHits assets p = [] := by
      unfold buildHits
      rw [List.filter_eq_nil_iff]
      intro a ha
      simp [hall a ha]
    unfold build
    rw [hnil]
    simp

/-- Witness for C3: a build over one asset disjoint from the requested
bounds fails with the empty-intersection error. -/
theorem build_emptyIntersection_iff_witness :
    build [sampleAsset]
      { xmin := 100, ymin := 100, xmax := 200, ymax := 200,
        tStart := 0, tEnd := 9, bands := ["B02"] } =
      Except.error BuildError.emptyIntersection :=
  (build_emptyIntersection_iff [sampleAsset]
    { xmin := 100, ymin := 100, xmax := 200, ymax := 200,
      tStart := 0, tEnd := 9, bands := ["B02"] }).mpr (by decide)

/-- C6: for assets participating in a successful build, the time axis is the
sorted, deduplicated set of the source acquisition timestamps (hence strictly
increasing) and the band axis is the union (deduplication) of the requested
band identifiers. -/
theorem build_axes (assets : List AssetDescriptor) (p : BuildParams)
    (va : VirtualArray)
    (hall : ∀ a ∈ assets, intersects a p = true)
    (hok : build assets p = Except.ok va) :
    List.Sorted (· < ·) va.timeAxis ∧
      (∀ t, t ∈ va.timeAxis ↔ ∃ a ∈ assets, a.timestamp = t) ∧
      va.bandAxis = p.bands.dedup := by
  have hhits : buildHits assets p = assets := by
    unfold buildHits
    exact List.filter_eq_self.mpr hall
  unfold build at hok
  rw [hhits] at hok
  split at hok
  · exact absurd hok (by simp)
  · split at hok
    · exact absurd hok (by simp)
    · cases hok
      refine ⟨sorted_sortedDedupTimes _, ?_, rfl⟩
      intro t
      rw [mem_sortedDedupTimes]
      simp [List.mem_map, eq_comm]

/-- Witness for C6: a build over two assets sharing a timestamp with a third
later one has the strictly increasing, deduplicated time axis. -/
theorem build_axes_witness :
    List.Sorted (· < ·)
      (VirtualArray.timeAxis
        { timeAxis := [5, 7], bandAxis := ["B02"],
          assets := sortByTime [sampleAsset, sampleAssetLate, sampleAsset] }) ∧
      (∀ t, t ∈ VirtualArray.timeAxis
        { timeAxis := [5, 7], bandAxis := ["B02"],
          assets := sortByTime [sampleAsset, sampleAssetLate, sampleAsset] } ↔
        ∃ a ∈ [sampleAsset, sampleAssetLate, sampleAsset], a.timestamp = t) ∧
      VirtualArray.bandAxis
        { timeAxis := [5, 7], bandAxis := ["B02"],
          assets := sortByTime [sampleAsset, sampleAssetLate, sampleAsset] } =
        ["B02"].dedup :=
  build_axes [sampleAsset, sampleAssetLate, sampleAsset]
    { xmin := -1, ymin := -1, xmax := 20, ymax := 20,
      tStart := 0, tEnd := 9, bands := ["B02"] }
    { timeAxis := [5, 7], bandAxis := ["B02"],
      assets := sortByTime [sampleAsset, sampleAssetLate, sampleAsset] }
    (by decide) (by decide)

/-! ## Coordinate resolution (last-write-wins composite view) -/

/-- A coordinate of the virtual array: time, band, and spatial row/column
position. -/
structure Coord where
  t : Nat
  band : String
  x : Int
  y : Int
deriving DecidableEq

/-- Modelled from the spec: an asset supplies the cell at a coordinate when
the cell's spatial position falls in the asset's footprint, the asset carries
the requested band, and the asset was acquired no later than the cell's time
(the notebooks forward-fill the composite along time, so a cell shows the most
recent scene acquired up to its time coordinate). -/
def covers (a : AssetDescriptor) (c : Coord) : Bool :=
  decide (a.xmin ≤ c.x) && decide (c.x ≤ a.xmax) &&
  decide (a.ymin ≤ c.y) && decide (c.y ≤ a.ymax) &&
  decide (a.timestamp ≤ c.t) && a.bands.contains c.band

/-- Modelled from the spec: each cell maps to a region of exactly one
AssetDescriptor or is marked no-data; overlapping descriptors are resolved by
last-write-wins in ascending acquisition order, folding over the assets so
that later scenes overwrite earlier ones. -/
def resolve (va : VirtualArray) (c : Coord) : Option AssetDescriptor :=
  va.assets.foldl (fun acc a => if covers a c then some a else acc) none

theorem resolve_fold_none (c : Coord) (l : List AssetDescriptor) :
    l.foldl (fun acc a => if covers a c then some a else acc) none = none ↔
      ∀ a ∈ l, covers a c = false := by
  induction l using List.reverseRecOn with
  | nil => simp
  | append_singleton l x ih =>
    rw [List.foldl_append]
    simp only [List.foldl_cons, List.foldl_nil]
    by_cases hx : covers x c = true
    · rw [if_pos hx]
      constructor
      · intro h
        exact absurd h (by simp)
      · intro h
        exact absurd (h x (by simp)) (by simp [hx])
    · have hx' : covers x c = false := by simpa using hx
      rw [if_neg hx, ih]
      constructor
      · intro h a ha
        rcases List.mem_append.mp ha with ha | ha
        · exact h a ha
        · rw [List.mem_singleton.mp ha]
          exact hx'
      · intro h a ha
        exact h a (List.mem_append.mpr (Or.inl ha))

theorem resolve_fold_some (c : Coord) (l : List AssetDescriptor)
    (hl : l.Pairwise (fun u v => u.timestamp ≤ v.timestamp))
    (a : AssetDescriptor)
    (ha : l.foldl (fun acc x => if covers x c then some x else acc) none =
      some a) :
    a ∈ l ∧ covers a c = true ∧
      ∀ b ∈ l, covers b c = true → b.timestamp ≤ a.timestamp := by
  induction l using List.reverseRecOn with
  | nil => simp at ha
  | append_singleton l x ih =>
    rw [List.pairwise_append] at hl
    obtain ⟨hp1, _, hcross⟩ := hl
    have hcr : ∀ u ∈ l, u.timestamp ≤ x.timestamp :=
      fun u hu => hcross u hu x (by simp)
    rw [List.foldl_append] at ha
    simp only [List.foldl_cons, List.foldl_nil] at ha
    by_cases hx : covers x c = true
    · rw [if_pos hx] at ha
      cases ha
      refine ⟨by simp, hx, ?_⟩
      intro b hb _
      rcases List.mem_append.mp hb with hb | hb
      · exact hcr b hb
      · rw [List.mem_singleton.mp hb]
    · rw [if_neg hx] at ha
      obtain ⟨hmem, hcova, hmax⟩ := ih hp1 ha
      refine ⟨List.mem_append.mpr (Or.inl hmem), hcova, ?_⟩
      intro b hb hcov
      rcases List.mem_append.mp hb with hb | hb
      · exact hmax b hb hcov
      · rw [List.mem_singleton.mp hb] at hcov
        exact absurd hcov hx

/-- C5: in a VirtualArray produced by a successful build, every coordinate
either resolves to exactly one source asset or is marked no-data (`none`), and
when several assets overlap at a coordinate, resolution is last-write-wins in
ascending acquisition order: the resolved asset covers the coordinate and no
covering asset has a later acquisition timestamp. -/
theorem resolve_unique_or_nodata (assets : List AssetDescriptor)
    (p : BuildParams) (va : VirtualArray)
    (hok : build assets p = Except.ok va) (c : Coord) :
    (resolve va c = none ↔ ∀ a ∈ va.assets, covers a c = false) ∧
      ∀ a, resolve va c = some a →
        a ∈ va.assets ∧ covers a c = true ∧
          ∀ b ∈ va.assets, covers b c = true → b.timestamp ≤ a.timestamp := by
  have hpw : va.assets.Pairwise (fun u v => u.timestamp ≤ v.timestamp) := by
    unfold build at hok
    split at hok
    · exact absurd hok (by simp)
    · split at hok
      · exact absurd hok (by simp)
      · cases hok
        exact pairwise_sortByTime _
  exact ⟨resolve_fold_none c va.assets,
    fun a ha => resolve_fold_some c va.assets hpw a ha⟩

/-- Witness for C5: a build over two assets overlapping at a coordinate, where
the later scene wins. -/
theorem resolve_unique_or_nodata_witness :
    (resolve
        { timeAxis := [5, 7], bandAxis := ["B02"],
          assets := sortByTime [sampleAsset, sampleAssetLate] }
        { t := 8, band := "B02", x := 7, y := 7 } = none ↔
      ∀ a ∈ (VirtualArray.assets
        { timeAxis := [5, 7], bandAxis := ["B02"],
          assets := sortByTime [sampleAsset, sampleAssetLate] }),
        covers a { t := 8, band := "B02", x := 7, y := 7 } = false) ∧
      ∀ a, resolve
          { timeAxis := [5, 7], bandAxis := ["B02"],
            assets := sortByTime [sampleAsset, sampleAssetLate] }
          { t := 8, band := "B02", x := 7, y := 7 } = some a →
        a ∈ (VirtualArray.assets
          { timeAxis := [5, 7], bandAxis := ["B02"],
            assets := sortByTime [sampleAsset, sampleAssetLate] }) ∧
          covers a { t := 8, band := "B02", x := 7, y := 7 } = true ∧
          ∀ b ∈ (VirtualArray.assets
            { timeAxis := [5, 7], bandAxis := ["B02"],
              assets := sortByTime [sampleAsset, sampleAssetLate] }),
            covers b { t := 8, band := "B02", x := 7, y := 7 } = true →
              b.timestamp ≤ a.timestamp :=
  resolve_unique_or_nodata [sampleAsset, sampleAssetLate]
    { xmin := -1, ymin := -1, xmax := 20, ymax := 20,
      tStart := 0, tEnd := 9, bands := ["B02"] }
    { timeAxis := [5, 7], bandAxis := ["B02"],
      assets := sortByTime [sampleAsset, sampleAssetLate] }
    (by decide) { t := 8, band := "B02", x := 7, y := 7 }

/-! ## Deferred Execution Engine: task graphs and lazy construction -/

/-- Modelled from the spec: a TaskGraph node — a pending stacking, slicing,
resampling or reduction over a VirtualArray, inert until executed. -/
inductive Plan where
  | source (assets : List AssetDescriptor)
  | slicePlan (lo hi : Nat) (p : Plan)
  | resamplePlan (factor : Nat) (p : Plan)
  | reducePlan (p : Plan)
deriving DecidableEq

/-- The remote tiles whose pixel data executing a plan must read. -/
def readsOfPlan : Plan → List String
  | Plan.source assets => assets.map AssetDescriptor.uri
  | Plan.slicePlan _ _ p => readsOfPlan p
  | Plan.resamplePlan _ p => readsOfPlan p
  | Plan.reducePlan p => readsOfPlan p

/-- Modelled from the spec: the operations a caller issues — graph
construction steps (stacking, slicing, resampling, reduction) and the
top-level compute trigger. -/
inductive Cmd where
  | stackCmd (assets : List AssetDescriptor)
  | sliceCmd (lo hi : Nat)
  | resampleCmd (factor : Nat)
  | reduceCmd
  | computeCmd
deriving DecidableEq

/-- The session state: the task graph built so far together with the log of
pixel reads performed. -/
structure SessionState where
  graph : Plan
  readLog : List String
deriving DecidableEq

/-- Modelled from the spec: one caller step. Graph construction is purely
local — it only rewrites the pending plan; only the compute trigger performs
the deferred pixel reads, appending them to the read log. -/
def stepSession (s : SessionState) : Cmd → SessionState
  | Cmd.stackCmd assets => { s with graph := Plan.source assets }
  | Cmd.sliceCmd lo hi => { s with graph := Plan.slicePlan lo hi s.graph }
  | Cmd.resampleCmd f => { s with graph := Plan.resamplePlan f s.graph }
  | Cmd.reduceCmd => { s with graph := Plan.reducePlan s.graph }
  | Cmd.computeCmd => { s with readLog := s.readLog ++ readsOfPlan s.graph }

/-- Run a sequence of caller steps. -/
def runSession (s : SessionState) : List Cmd → SessionState
  | [] => s
  | c :: cs => runSession (stepSession s c) cs

/-- The initial session: an empty source plan, no reads performed. -/
def initSession : SessionState := { graph := Plan.source [], readLog := [] }

theorem runSession_no_compute_readLog (cmds : List Cmd) :
    ∀ s : SessionState, (∀ c ∈ cmds, c ≠ Cmd.computeCmd) →
      (runSession s cmds).readLog = s.readLog := by
  induction cmds with
  | nil => intro s _; rfl
  | cons c cs ih =>
    intro s h
    have hc : c ≠ Cmd.computeCmd := h c (by simp)
    have hcs : ∀ d ∈ cs, d ≠ Cmd.computeCmd := fun d hd => h d (by simp [hd])
    have hstep : (stepSession s c).readLog = s.readLog := by
      cases c with
      | stackCmd assets => rfl
      | sliceCmd lo hi => rfl
      | resampleCmd f => rfl
      | reduceCmd => rfl
      | computeCmd => exact absurd rfl hc
    rw [runSession, ih (stepSession s c) hcs, hstep]

/-- C1: building a virtual array and transforming it (stacking, slicing,
resampling, reduction-graph construction) reads no pixel data — every
operation before the top-level compute trigger leaves the read log empty, so
all pixel reads are deferred until that trigger. -/
theorem build_reads_no_pixels (cmds : List Cmd)
    (h : ∀ c ∈ cmds, c ≠ Cmd.computeCmd) :
    (runSession initSession cmds).readLog = [] :=
  runSession_no_compute_readLog cmds initSession h

/-- Witness for C1: a stack-slice-resample-reduce session performs no reads
before compute. -/
theorem build_reads_no_pixels_witness :
    (runSession initSession
      [Cmd.stackCmd [sampleAsset, sampleAssetLate], Cmd.sliceCmd 0 1,
        Cmd.resampleCmd 2, Cmd.reduceCmd]).readLog = [] :=
  build_reads_no_pixels
    [Cmd.stackCmd [sampleAsset, sampleAssetLate], Cmd.sliceCmd 0 1,
      Cmd.resampleCmd 2, Cmd.reduceCmd]
    (by decide)

/-! ## Order-independent chunk reduction -/

/-- Modelled from the spec: the engine combines per-chunk partial results with
a streaming combine step, folding over the chunks in scheduling order. -/
def reduceChunks {α : Type} (op : α → α → α) (init : α) (chunks : List α) : α :=
  chunks.foldl op init

theorem reduceChunks_perm {α : Type} (op : α → α → α)
    (hcomm : ∀ a b, op a b = op b a)
    (hassoc : ∀ a b c, op (op a b) c = op a (op b c))
    {l1 l2 : List α} (hp : List.Perm l1 l2) :
    ∀ init, reduceChunks op init l1 = reduceChunks op init l2 := by
  induction hp with
  | nil => intro init; rfl
  | cons x _ ih =>
    intro init
    simp only [reduceChunks, List.foldl_cons] at *
    exact ih (op init x)
  | swap x y l =>
    intro init
    simp only [reduceChunks, List.foldl_cons]
    rw [hassoc, hassoc, hcomm y x]
  | trans _ _ ih1 ih2 =>
    intro init
    exact (ih1 init).trans (ih2 init)

/-- The order-independent combine step used for mean reductions: running
(sum, count) pairs are added componentwise. -/
def meanCombine (p q : ℚ × ℚ) : ℚ × ℚ := (p.1 + q.1, p.2 + q.2)

theorem meanCombine_comm (p q : ℚ × ℚ) : meanCombine p q = meanCombine q p := by
  simp [meanCombine, add_comm]

theorem meanCombine_assoc (p q r : ℚ × ℚ) :
    meanCombine (meanCombine p q) r = meanCombine p (meanCombine q r) := by
  simp [meanCombine, add_assoc]

/-- C2: when the reduction combines chunk results with an associative and
commutative operation (as the mean and max reductions do), permuting the order
in which chunks are combined does not change the materialized result. -/
theorem reduceChunks_order_independent {α : Type} (op : α → α → α)
    (init : α) (l1 l2 : List α)
    (hcomm : ∀ a b, op a b = op b a)
    (hassoc : ∀ a b c, op (op a b) c = op a (op b c))
    (hp : List.Perm l1 l2) :
    reduceChunks op init l1 = reduceChunks op init l2 :=
  reduceChunks_perm op hcomm hassoc hp init

/-- Witness for C2: the streaming mean combine over a shuffled chunk list. -/
theorem reduceChunks_order_independent_witness :
    reduceChunks meanCombine (0, 0) [((1 : ℚ), (1 : ℚ)), (2, 1), (3, 1)] =
      reduceChunks meanCombine (0, 0) [((3 : ℚ), (1 : ℚ)), (1, 1), (2, 1)] :=
  reduceChunks_order_independent meanCombine (0, 0)
    [((1 : ℚ), (1 : ℚ)), (2, 1), (3, 1)] [((3 : ℚ), (1 : ℚ)), (1, 1), (2, 1)]
    meanCombine_comm meanCombine_assoc (by decide)

/-! ## Deterministic execution across worker schedules -/

/-- Modelled from the spec: a pure, idempotent chunk task — read the chunk's
tile from the source data and return its partial (sum, count) contribution. -/
def computeChunk (src : String → ℚ) (uri : String) : ℚ × ℚ := (src uri, 1)

/-- Modelled from the spec: execute a task graph over source data with a given
worker scheduling order of the chunk reads, combining partial results with the
order-independent combine step into the MaterializedResult. -/
def executeSchedule (src : String → ℚ) (sched : List String) : ℚ × ℚ :=
  reduceChunks meanCombine (0, 0) (sched.map (computeChunk src))

/-- C8: executing the same TaskGraph twice against unchanged source data
yields bit-identical MaterializedResults, even when the two runs schedule the
chunk tasks in different orders: any two schedules covering the graph's chunks
produce the same result. -/
theorem executeSchedule_idempotent (src : String → ℚ) (g : Plan)
    (sched1 sched2 : List String)
    (h1 : List.Perm sched1 (readsOfPlan g))
    (h2 : List.Perm sched2 (readsOfPlan g)) :
    executeSchedule src sched1 = executeSchedule src sched2 :=
  reduceChunks_perm meanCombine meanCombine_comm meanCombine_assoc
    ((h1.trans h2.symm).map (computeChunk src)) (0, 0)

/-- Witness for C8: two differently ordered runs over a two-asset source
plan. -/
theorem executeSchedule_idempotent_witness :
    executeSchedule (fun _ => 2)
        [sampleAsset.uri, sampleAssetLate.uri] =
      executeSchedule (fun _ => 2)
        [sampleAssetLate.uri, sampleAsset.uri] :=
  executeSchedule_idempotent (fun _ => 2)
    (Plan.source [sampleAsset, sampleAssetLate])
    [sampleAsset.uri, sampleAssetLate.uri]
    [sampleAssetLate.uri, sampleAsset.uri]
    (by decide) (by decide)

/-! ## Failure semantics: bounded retries and ComputeError -/

/-- The coordinates of a chunk of the virtual array: time slice and spatial
tile indices. -/
structure ChunkCoord where
  t : Nat
  yIdx : Nat
  xIdx : Nat
deriving DecidableEq

/-- Modelled from the spec: execution failure identifying the failed chunk's
coordinates. -/
inductive ComputeError where
  | chunkFailed (c : ChunkCoord)
deriving DecidableEq

/-- The outcome of one remote read attempt: a value, or a transient failure
(network timeout). -/
inductive ReadOutcome where
  | value (v : ℚ)
  | transientFailure
deriving DecidableEq

/-- Modelled from the spec: the bounded retry loop for one chunk read. The
first attempt is the initial read; each transient failure consumes one unit of
the retry budget, and an exhausted budget fails with a `ComputeError` naming
the chunk's coordinates. The second component counts the retry attempts
performed. -/
def retryLoop (attempt : Nat → ReadOutcome) (c : ChunkCoord) :
    Nat → Nat → (Except ComputeError ℚ) × Nat
  | idx, fuel =>
    match attempt idx with
    | ReadOutcome.value v => (Except.ok v, 0)
    | ReadOutcome.transientFailure =>
      match fuel with
      | 0 => (Except.error (ComputeError.chunkFailed c), 0)
      | fuel' + 1 =>
        let r := retryLoop attempt c (idx + 1) fuel'
        (r.1, r.2 + 1)

/-- Read one chunk with the given retry budget, returning the result and the
number of retry attempts performed. -/
def readChunkWithRetry (attempt : Nat → ReadOutcome) (c : ChunkCoord)
    (budget : Nat) : (Except ComputeError ℚ) × Nat :=
  retryLoop attempt c 0 budget

/-- Modelled from the spec: execute the chunk tasks in order. A chunk that
exhausts its retries fails the whole execution with its `ComputeError` and no
partial result is returned — unless the caller opted into partial-result
tolerance, in which case the failed region is filled with no-data (`none`). -/
def executeWithFailures (tolerant : Bool)
    (attempt : ChunkCoord → Nat → ReadOutcome) (budget : Nat) :
    List ChunkCoord → Except ComputeError (List (ChunkCoord × Option ℚ))
  | [] => Except.ok []
  | c :: cs =>
    match (readChunkWithRetry (attempt c) c budget).1 with
    | Except.ok v =>
      match executeWithFailures tolerant attempt budget cs with
      | Except.ok rest => Except.ok ((c, some v) :: rest)
      | Except.error e => Except.error e
    | Except.error e =>
      if tolerant then
        match executeWithFailures tolerant attempt budget cs with
        | Except.ok rest => Except.ok ((c, none) :: rest)
        | Except.error e2 => Except.error e2
      else Except.error e

/-- C4: with a retry budget of 3, a chunk whose reads fail transiently on
every attempt is retried exactly 3 times and then fails with a `ComputeError`
naming the chunk's coordinates; by default the whole execution fails with that
error and returns no partial result, while a caller who opted into
partial-result tolerance receives the failed region filled with no-data. -/
theorem retry_exhaustion_compute_error (c0 c1 : ChunkCoord) (hne : c1 ≠ c0) :
    (readChunkWithRetry (fun _ => ReadOutcome.transientFailure) c0 3).2 = 3 ∧
      (readChunkWithRetry (fun _ => ReadOutcome.transientFailure) c0 3).1 =
        Except.error (ComputeError.chunkFailed c0) ∧
      executeWithFailures false
        (fun c _ =>
          if c = c0 then ReadOutcome.transientFailure else ReadOutcome.value 1)
        3 [c1, c0] = Except.error (ComputeError.chunkFailed c0) ∧
      executeWithFailures true
        (fun c _ =>
          if c = c0 then ReadOutcome.transientFailure else ReadOutcome.value 1)
        3 [c1, c0] = Except.ok [(c1, some 1), (c0, none)] := by
  refine ⟨rfl, rfl, ?_, ?_⟩
  · simp [executeWithFailures, readChunkWithRetry, retryLoop, hne]
  · simp [executeWithFailures, readChunkWithRetry, retryLoop, hne]

/-- Witness for C4 at concrete chunk coordinates. -/
theorem retry_exhaustion_compute_error_witness :
    (readChunkWithRetry (fun _ => ReadOutcome.transientFailure)
        { t := 0, yIdx := 0, xIdx := 0 } 3).2 = 3 ∧
      (readChunkWithRetry (fun _ => ReadOutcome.transientFailure)
          { t := 0, yIdx := 0, xIdx := 0 } 3).1 =
        Except.error (ComputeError.chunkFailed { t := 0, yIdx := 0, xIdx := 0 }) ∧
      executeWithFailures false
        (fun c _ =>
          if c = { t := 0, yIdx := 0, xIdx := 0 } then
            ReadOutcome.transientFailure
          else ReadOutcome.value 1)
        3 [{ t := 0, yIdx := 0, xIdx := 1 }, { t := 0, yIdx := 0, xIdx := 0 }] =
        Except.error (ComputeError.chunkFailed { t := 0, yIdx := 0, xIdx := 0 }) ∧
      executeWithFailures true
        (fun c _ =>
          if c = { t := 0, yIdx := 0, xIdx := 0 } then
            ReadOutcome.transientFailure
          else ReadOutcome.value 1)
        3 [{ t := 0, yIdx := 0, xIdx := 1 }, { t := 0, yIdx := 0, xIdx := 0 }] =
        Except.ok
          [({ t := 0, yIdx := 0, xIdx := 1 }, some 1),
            ({ t := 0, yIdx := 0, xIdx := 0 }, none)] :=
  retry_exhaustion_compute_error
    { t := 0, yIdx := 0, xIdx := 0 } { t := 0, yIdx := 0, xIdx := 1 }
    (by decide)

end Foss4g
